import Mathlib

/- Formal model (shallow embedding) of the ShopTalk retrieval pipeline:
   the filter engine and orchestrator filter/relax/summarize steps from
   api/main.py, the query parser from api/llm_helper.py, and the vector
   store adapter from api/vector_db.py.  Machine floats are modelled as
   rationals; external calls (LLM, reranker scorer, vector backends) are
   modelled as explicit parameters; a Python exception escaping a modelled
   function is an `Option`/`Except` failure value. -/

namespace ShopTalk

/-- A value stored in a candidate's `price` metadata field: either a number
or a raw string (Python metadata dicts carry both). -/
inductive PriceVal where
  | num (q : ℚ)
  | str (s : String)
deriving DecidableEq

/-- Candidate metadata dict as read by `apply_filters` and `rerank` in
api/main.py: each key accessed via `.get` is an optional field.  A Python
falsy metadata entry (`None` or `{}`) is modelled as `none` at the list
level (`List (Option Meta)`). -/
structure Meta where
  title : Option String := none
  text : Option String := none
  category : Option String := none
  price : Option PriceVal := none
  color : Option String := none
  brand : Option String := none
  gender : Option String := none
deriving DecidableEq

/-- The parsed-filters dict as consumed by `apply_filters` (api/main.py):
`price_max` is already numeric or absent (`_coerce_parsed` / the timeout
fallback only ever hand over a number or `None`). -/
structure Filters where
  category : Option String := none
  color : Option String := none
  brand : Option String := none
  gender : Option String := none
  price_max : Option ℚ := none
  must_have : List String := []
  exclude : List String := []
deriving DecidableEq

/-- The canonical result shape threaded through the pipeline: the inner
lists of the `{"ids": [[...]], "metadatas": [[...]], "distances": [[...]]}`
dict (the `[0]` unwrap of api/main.py lines 101-103 is performed once
here). -/
structure Results where
  ids : List String
  metadatas : List (Option Meta)
  distances : List ℚ
deriving DecidableEq

/-- Python `str.strip()`: drop leading and trailing whitespace (written on
the character list so that proofs can evaluate it). -/
def pyStrip (s : String) : String :=
  ⟨((s.data.dropWhile Char.isWhitespace).reverse.dropWhile Char.isWhitespace).reverse⟩

/-- Python `str.lower()` (ASCII case folding, written on the character
list so that proofs can evaluate it). -/
def pyLower (s : String) : String :=
  ⟨s.data.map Char.toLower⟩

/-- Digit string to natural number value. -/
def digitsToNat (cs : List Char) : ℕ :=
  cs.foldl (fun a c => a * 10 + (c.toNat - 48)) 0

/-- Model of Python `float(s)` on finite decimal notations: optional
surrounding whitespace, optional sign, digits with optional fractional
part, optional exponent.  (Exotic accepted forms — `inf`, `nan`,
digit-group underscores — are outside the model.)  `none` models a raised
`ValueError`. -/
def parseFloat (s : String) : Option ℚ :=
  let cs := (pyStrip s).data
  let signRest : ℚ × List Char :=
    match cs with
    | '+' :: r => (1, r)
    | '-' :: r => (-1, r)
    | r => (1, r)
  let mantExp := signRest.2.span (fun c => !(c = 'e' || c = 'E'))
  let intFrac := mantExp.1.span (fun c => !(c = '.'))
  let fpart : List Char := match intFrac.2 with
    | _ :: f => f
    | [] => []
  let mantissaOk : Bool :=
    intFrac.1.all Char.isDigit && fpart.all Char.isDigit &&
      !(intFrac.1.isEmpty && fpart.isEmpty)
  let mantVal : ℚ :=
    (digitsToNat intFrac.1 : ℚ) + (digitsToNat fpart : ℚ) / ((10 : ℚ) ^ fpart.length)
  match mantExp.2 with
  | [] => if mantissaOk then some (signRest.1 * mantVal) else none
  | _ :: ex =>
    let esignRest : ℤ × List Char :=
      match ex with
      | '+' :: r => (1, r)
      | '-' :: r => (-1, r)
      | r => (1, r)
    if mantissaOk && !esignRest.2.isEmpty && esignRest.2.all Char.isDigit then
      some (signRest.1 * mantVal * (10 : ℚ) ^ (esignRest.1 * (digitsToNat esignRest.2 : ℤ)))
    else none

/-- `norm` from api/main.py line 106: `(x or "").strip().lower()`. -/
def norm (x : Option String) : String := pyLower (pyStrip (x.getD ""))

/-- The free-text blob of api/main.py line 119:
`(m.get("title","") + " " + m.get("text","")).lower()`. -/
def blob (m : Meta) : String :=
  pyLower ((m.title.getD "") ++ " " ++ (m.text.getD ""))

/-- Python substring test `needle in hay` on strings. -/
def isSubstr (needle hay : String) : Bool :=
  hay.data.tails.any (fun t => needle.data.isPrefixOf t)

/-- Category predicate, api/main.py lines 122-133 (the four-way OR). -/
def catPass (f : Filters) (m : Meta) : Bool :=
  let fcat := norm f.category
  if fcat = "" then true
  else
    let dbCat := norm m.category
    (fcat == dbCat) || isSubstr fcat dbCat || isSubstr dbCat fcat || isSubstr fcat (blob m)

/-- Numeric value of a stored price as Python `float(...)` would produce
it; `none` models a raised conversion error. -/
def priceFloat : PriceVal → Option ℚ
  | .num q => some q
  | .str s => parseFloat s

/-- Price predicate, api/main.py lines 135-140: only checked when
`price_max` is set and the stored price is neither `None` nor `""`; a
conversion error is swallowed (`except: pass`), so an unparseable price
passes. -/
def pricePass (pmax : Option ℚ) (price : Option PriceVal) : Bool :=
  match pmax with
  | none => true
  | some q =>
    match price with
    | none => true
    | some p =>
      if p = PriceVal.str "" then true
      else
        match priceFloat p with
        | none => true
        | some v => decide (v ≤ q)

/-- Color predicate, api/main.py line 143. -/
def colorPass (f : Filters) (m : Meta) : Bool :=
  let fc := norm f.color
  (fc == "") || isSubstr fc (norm m.color) || isSubstr fc (blob m)

/-- Brand predicate, api/main.py line 145. -/
def brandPass (f : Filters) (m : Meta) : Bool :=
  let fb := norm f.brand
  (fb == "") || isSubstr fb (norm m.brand) || isSubstr fb (blob m)

/-- Gender predicate, api/main.py line 147. -/
def genderPass (f : Filters) (m : Meta) : Bool :=
  let fg := norm f.gender
  (fg == "") || isSubstr fg (norm m.gender) || isSubstr fg (blob m)

/-- Normalised must-have tokens, api/main.py line 112:
`[norm(t) for t in (filters.get("must_have") or []) if norm(t)]`. -/
def mustTokens (f : Filters) : List String :=
  (f.must_have.map (fun t => pyLower (pyStrip t))).filter (fun t => t ≠ "")

/-- Must-have predicate, api/main.py line 151: every token must appear in
the blob. -/
def mustPass (f : Filters) (m : Meta) : Bool :=
  (mustTokens f).all (fun tok => isSubstr tok (blob m))

/-- The combined per-candidate predicate of `apply_filters` (all clauses
ANDed; `ok` starts `True` and each failing clause forces it `False`). -/
def candPass (f : Filters) (m : Meta) : Bool :=
  catPass f m && pricePass f.price_max m.price && colorPass f m &&
    brandPass f m && genderPass f m && mustPass f m

/-- The `kept` loop of `apply_filters` (api/main.py lines 114-155):
enumerate `metas` from position `idx`, skip falsy entries, keep passing
candidates as `(ids[idx], m, dists[idx])`.  An out-of-range `ids[idx]` or
`dists[idx]` access raises `IndexError`, modelled as `none`. -/
def keptFrom (ids : List String) (dists : List ℚ) (f : Filters) :
    List (Option Meta) → ℕ → Option (List (String × Option Meta × ℚ))
  | [], _ => some []
  | om :: rest, idx =>
    match om with
    | none => keptFrom ids dists f rest (idx + 1)
    | some m =>
      if candPass f m then
        match ids[idx]?, dists[idx]? with
        | some i, some d =>
          (keptFrom ids dists f rest (idx + 1)).map (fun ks => (i, some m, d) :: ks)
        | _, _ => none
      else keptFrom ids dists f rest (idx + 1)

/-- `apply_filters` from api/main.py lines 100-160.  Returns the input
unchanged when the id list is empty (line 104) or when nothing was kept
(lines 157-158); otherwise rebuilds the three lists from `kept` (lines
159-160).  `none` models a raised exception. -/
def apply_filters (r : Results) (f : Filters) : Option Results :=
  if r.ids = [] then some r
  else
    match keptFrom r.ids r.distances f r.metadatas 0 with
    | none => none
    | some [] => some r
    | some ks =>
      some ⟨ks.map (fun t => t.1), ks.map (fun t => t.2.1), ks.map (fun t => t.2.2)⟩

/-- Python truthiness of the raw `parsed.get("category")` value tested by
the orchestrator (api/main.py line 230). -/
def categoryTruthy (f : Filters) : Bool :=
  match f.category with
  | none => false
  | some s => s ≠ ""

/-- The relaxation copy built by the orchestrator (api/main.py lines
233-234): `parsed.copy()` with `category` forced to `None`. -/
def clearCategory (f : Filters) : Filters := { f with category := none }

/-- The orchestrator's filter step, api/main.py lines 223-238: run
`apply_filters`; if the resulting id list is empty and a category was
constrained, run `apply_filters` once more with category cleared and use
that output. -/
def answerFilterStage (pool : Results) (parsed : Filters) : Option Results :=
  match apply_filters pool parsed with
  | none => none
  | some r1 =>
    if r1.ids.isEmpty && categoryTruthy parsed then
      apply_filters pool (clearCategory parsed)
    else some r1

/-- Candidate text for reranking, api/main.py line 304:
`m.get("text") or m.get("title") or ""`. -/
def textOf (m : Meta) : String :=
  let a := m.text.getD ""
  if a = "" then m.title.getD "" else a

/-- Truncation of long candidate texts, api/main.py lines 306-307. -/
def truncText (t : String) : String :=
  if t.length > 500 then ⟨t.data.take 500⟩ ++ "..." else t

/-- The cross-encoder score of the candidate at input position `i`
(api/main.py lines 303-311): the external `reranker.predict` is modelled
by the score function `f` applied to the (query, truncated text) pair, so
`scoreAt f q metas i` is `scores[i]`. -/
def scoreAt (f : String → String → ℚ) (q : String) (metas : List (Option Meta)) (i : ℕ) : ℚ :=
  f q (truncText (textOf ((metas.getD i none).getD {})))

/-- The comparator realising Python
`sorted(range(n), key=lambda i: scores[i], reverse=True)` (api/main.py
line 312): index `i` may precede `j` exactly when `scores[j] <= scores[i]`.
Python's sort is stable also under `reverse=True`, which a stable merge
sort under this total comparator reproduces. -/
def rerankLe (f : String → String → ℚ) (q : String) (metas : List (Option Meta))
    (i j : ℕ) : Bool :=
  decide (scoreAt f q metas j ≤ scoreAt f q metas i)

/-- The index order produced by api/main.py line 312. -/
def rerankOrder (f : String → String → ℚ) (q : String) (metas : List (Option Meta))
    (topn : ℕ) : List ℕ :=
  (List.range (min topn metas.length)).mergeSort (rerankLe f q metas)

/-- `rerank` from api/main.py lines 299-313: score the first
`n = min(topn, len(metas))` candidates, sort indices by descending score
(stable), and rebuild the three lists over that order, dropping everything
beyond `n`.  `none` models a raised exception (a falsy metadata entry
among the first `n`, or an out-of-range `ids[i]`/`dists[i]` access). -/
def rerank (f : String → String → ℚ) (q : String) (ids : List String)
    (metas : List (Option Meta)) (dists : List ℚ) (topn : ℕ) :
    Option (List String × List (Option Meta) × List ℚ) :=
  let n := min topn metas.length
  if (metas.take n).all Option.isSome = true ∧ n ≤ ids.length ∧ n ≤ dists.length then
    some ((rerankOrder f q metas topn).map (fun i => ids.getD i ""),
          (rerankOrder f q metas topn).map (fun i => metas.getD i none),
          (rerankOrder f q metas topn).map (fun i => dists.getD i 0))
  else none

/-- The templated fallback answer of api/main.py line 268. -/
def fallbackSummary (q : String) (count : ℕ) : String :=
  "Found " ++ toString count ++ " products matching your search for '" ++ q ++
    "'. Here are the top results:"

/-- The orchestrator's summarize step, api/main.py lines 263-268: the
external `llm_nlg_answer` outcome is `some text` on success and `none` on
an `asyncio.TimeoutError`, in which case the templated fallback is
substituted. -/
def summarizeStep (nlg : Option String) (q : String) (metas : List (Option Meta)) : String :=
  match nlg with
  | some a => a
  | none => fallbackSummary q metas.length

/-- JSON values as returned by `json.loads` on the extractor's reply. -/
inductive JValue where
  | jnull
  | jbool (b : Bool)
  | jnum (q : ℚ)
  | jstr (s : String)
  | jarr (elems : List JValue)
  | jobj (fields : List (String × JValue))

/-- Python dict lookup `obj.get(k)` on a JSON object (`none` = missing
key). -/
def jget (fields : List (String × JValue)) (k : String) : Option JValue :=
  (fields.find? (fun p => p.1 == k)).map (fun p => p.2)

/-- `obj.get(k)` collapsing a missing key to JSON null, as the Python dict
value `None` and an absent key behave identically in `_coerce_parsed`. -/
def getJ (fields : List (String × JValue)) (k : String) : JValue :=
  (jget fields k).getD JValue.jnull

/-- Python truthiness of a JSON value. -/
def jTruthy : JValue → Bool
  | .jnull => false
  | .jbool b => b
  | .jnum q => decide (q ≠ 0)
  | .jstr s => s ≠ ""
  | .jarr xs => !xs.isEmpty
  | .jobj fs => !fs.isEmpty

/-- The dict built by `_coerce_parsed` / the parser's failure branch
(api/llm_helper.py): values are JSON values (`jnull` for Python `None`),
`warning` records the presence of the `"_warning"` key. -/
structure ParsedOut where
  category : JValue
  color : JValue
  brand : JValue
  gender : JValue
  price_max : JValue
  must_have : List JValue
  exclude : List JValue
  rewrite : JValue
  warning : Bool

/-- `_coerce_parsed` from api/llm_helper.py lines 52-73: keep only the
expected keys, coerce `must_have`/`exclude` to lists, default `rewrite` to
the user text when falsy, and coerce `price_max` (numeric strings parsed,
`bool` kept because Python `bool` is an `int`, other non-numbers dropped
to null). -/
def coerce_parsed (fields : List (String × JValue)) (user_text : String) : ParsedOut :=
  let pm := getJ fields "price_max"
  { category := getJ fields "category"
    color := getJ fields "color"
    brand := getJ fields "brand"
    gender := getJ fields "gender"
    price_max :=
      match pm with
      | .jstr s =>
        match parseFloat s with
        | some q => .jnum q
        | none => .jnull
      | .jnum _ => pm
      | .jbool _ => pm
      | .jnull => pm
      | _ => .jnull
    must_have :=
      match getJ fields "must_have" with
      | .jarr xs => xs
      | _ => []
    exclude :=
      match getJ fields "exclude" with
      | .jarr xs => xs
      | _ => []
    rewrite :=
      let r := getJ fields "rewrite"
      if jTruthy r then r else .jstr user_text
    warning := false }

/-- The minimal dict returned by `llm_parse_query`'s `except` branch
(api/llm_helper.py lines 88-98). -/
def fallbackParsed (user_text : String) : ParsedOut :=
  { category := .jnull, color := .jnull, brand := .jnull, gender := .jnull,
    price_max := .jnull, must_have := [], exclude := [],
    rewrite := .jstr user_text, warning := true }

/-- `llm_parse_query` from api/llm_helper.py lines 75-98.  The external
call (`_chat_model`/`ainvoke`, lines 76-79) sits OUTSIDE the `try` block,
so its failures propagate; only `json.loads` and the non-object check
(lines 82-86) are guarded.  `call` is the call's outcome:
`Except.error _` = the call itself raised (timeout, transport, API error);
`Except.ok none` = the call returned content on which `json.loads` raises;
`Except.ok (some v)` = content parsing to the JSON value `v`. -/
def llm_parse_query (call : Except Unit (Option JValue)) (user_text : String) :
    Except Unit ParsedOut :=
  match call with
  | .error e => .error e
  | .ok none => .ok (fallbackParsed user_text)
  | .ok (some v) =>
    match v with
    | .jobj fields => .ok (coerce_parsed fields user_text)
    | _ => .ok (fallbackParsed user_text)

/-- Whether the extraction step failed to deliver a JSON object (call
raised, non-JSON content, or non-object JSON). -/
def extractionFailed (call : Except Unit (Option JValue)) : Bool :=
  match call with
  | .ok (some (.jobj _)) => false
  | _ => true

/-- Whether extraction delivered an object whose `rewrite` is missing,
null or the empty string. -/
def extractedRewriteEmpty (call : Except Unit (Option JValue)) : Bool :=
  match call with
  | .ok (some (.jobj fs)) =>
    match jget fs "rewrite" with
    | none => true
    | some .jnull => true
    | some (.jstr s) => s == ""
    | some _ => false
  | _ => false

/-- Whether the decoded extractor content is a JSON object. -/
def isJsonObject : Option JValue → Bool
  | some (.jobj _) => true
  | _ => false

/-- One object of a Weaviate `near_vector` reply (api/vector_db.py lines
65-77). -/
structure WObj where
  uuid : String
  distance : ℚ
  properties : Meta

/-- The empty CandidateSet `{"ids": [[]], "distances": [[]],
"metadatas": [[]]}`. -/
def emptyResults : Results := ⟨[], [], []⟩

/-- `VectorDB._query_weaviate` (api/vector_db.py lines 61-83): convert the
native reply, with the whole body inside `try/except` returning the empty
result set on any error. -/
def queryWeaviate (native : Except Unit (List WObj)) (include_metadata : Bool) : Results :=
  match native with
  | .error _ => emptyResults
  | .ok objs =>
    if objs.isEmpty then emptyResults
    else
      ⟨objs.map (fun o => o.uuid),
       if include_metadata then objs.map (fun o => some o.properties) else [],
       objs.map (fun o => o.distance)⟩

/-- `VectorDB.query` (api/vector_db.py lines 53-92): dispatch on the
backend flag.  `wnative`/`cnative` are the native backend call outcomes
(`Except.error _` = the backing store raised / is unavailable).
`_query_chromadb` (lines 85-92) has no `try/except`: the native outcome is
returned as-is, so a ChromaDB error propagates. -/
def VectorDB.query (use_weaviate : Bool) (wnative : Except Unit (List WObj))
    (cnative : Except Unit Results) (include_metadata : Bool) : Except Unit Results :=
  if use_weaviate then .ok (queryWeaviate wnative include_metadata)
  else cnative

/-- Keep-test on one aligned triple: non-falsy metadata passing the
combined predicate. -/
def keptTest (f : Filters) (t : String × Option Meta × ℚ) : Bool :=
  match t.2.1 with
  | some m => candPass f m
  | none => false

/-- Proof-side characterisation of the `kept` loop: the candidates of the
aligned triple list that are non-falsy and pass the predicate. -/
def keptPure (f : Filters) (l : List (String × Option Meta × ℚ)) :
    List (String × Option Meta × ℚ) :=
  l.filter (keptTest f)

/-- Triple zip of the three parallel result lists. -/
def zip3 (a : List α) (b : List β) (c : List γ) : List (α × β × γ) :=
  a.zip (b.zip c)

/-- Concrete helmet candidate used to exercise the relaxation branch. -/
def helmetMeta : Meta :=
  { title := some "Red Bike Helmet", text := some "a red helmet",
    category := some "helmet", color := some "red" }

/-- Concrete non-matching candidate (wrong color, wrong category). -/
def lampMeta : Meta :=
  { title := some "Blue Desk Lamp", text := some "a blue lamp",
    category := some "lamp", color := some "blue" }

/-- A concrete retrieval pool: one helmet, one lamp, no drones. -/
def dronePool : Results :=
  ⟨["h1", "b2"], [some helmetMeta, some lampMeta], [1, 2]⟩

/-- Filters extracted from a query like "red drone": category `drone`,
color `red`. -/
def droneFilters : Filters := { category := some "drone", color := some "red" }

/-- What the relaxed (category-cleared) pass keeps from `dronePool`: just
the helmet. -/
def helmetOnly : Results := ⟨["h1"], [some helmetMeta], [1]⟩

/-- A concrete executable stand-in for the external cross-encoder scorer,
used to exercise `rerank` on concrete inputs. -/
def wScore : String → String → ℚ := fun _ t => if t = "bbb" then 5 else 2

/-- Concrete rerank candidates. -/
def wMeta1 : Meta := { text := some "aa" }

/-- Concrete rerank candidates. -/
def wMeta2 : Meta := { text := some "bbb" }

/-- Concrete rerank candidates. -/
def wMeta3 : Meta := { text := some "c" }

/-- `isSubstr` agrees with list infix. -/
theorem isSubstr_iff (n h : String) : isSubstr n h = true ↔ n.data <:+: h.data := by
  unfold isSubstr
  rw [List.any_eq_true]
  constructor
  · rintro ⟨t, ht, hp⟩
    rw [List.mem_tails] at ht
    rw [List.isPrefixOf_iff_prefix] at hp
    exact List.infix_iff_prefix_suffix.mpr ⟨t, hp, ht⟩
  · intro hi
    rcases List.infix_iff_prefix_suffix.mp hi with ⟨t, hp, hs⟩
    exact ⟨t, (List.mem_tails _ _).mpr hs, List.isPrefixOf_iff_prefix.mpr hp⟩

theorem keptTest_none (f : Filters) (a : String) (d : ℚ) :
    keptTest f (a, none, d) = false := rfl

theorem keptTest_some (f : Filters) (a : String) (m : Meta) (d : ℚ) :
    keptTest f (a, some m, d) = candPass f m := rfl

theorem zip3_cons (a : α) (as : List α) (b : β) (bs : List β) (c : γ) (cs : List γ) :
    zip3 (a :: as) (b :: bs) (c :: cs) = (a, b, c) :: zip3 as bs cs := rfl

theorem zip3_nil_mid (as : List α) (cs : List γ) :
    zip3 as ([] : List β) cs = [] := by
  simp [zip3, List.zip_nil_left, List.zip_nil_right]

/-- Unfolding the triple zip of two dropped lists against a cons. -/
theorem zip3_drop_cons (xs : List α) (zs : List γ) (b : β) (bs : List β) (idx : ℕ)
    (h1 : idx < xs.length) (h2 : idx < zs.length) :
    zip3 (xs.drop idx) (b :: bs) (zs.drop idx) =
      (xs[idx], b, zs[idx]) :: zip3 (xs.drop (idx + 1)) bs (zs.drop (idx + 1)) := by
  rw [List.drop_eq_getElem_cons h1, List.drop_eq_getElem_cons h2]
  rfl

/-- If no candidate passes, the kept list is empty (and no index is ever
touched, so no exception can occur). -/
theorem keptFrom_none_pass (ids : List String) (dists : List ℚ) (f : Filters)
    (metas : List (Option Meta))
    (hnp : ∀ om ∈ metas, ∀ m : Meta, om = some m → candPass f m = false) :
    ∀ idx, keptFrom ids dists f metas idx = some [] := by
  induction metas with
  | nil => intro idx; rfl
  | cons om rest ih =>
    intro idx
    have hrest : ∀ om ∈ rest, ∀ m : Meta, om = some m → candPass f m = false :=
      fun o ho m hm => hnp o (List.mem_cons_of_mem _ ho) m hm
    cases om with
    | none => simpa [keptFrom] using ih hrest (idx + 1)
    | some m =>
      have hm : candPass f m = false := hnp (some m) (List.mem_cons_self _ _) m rfl
      simpa [keptFrom, hm] using ih hrest (idx + 1)

/-- Under aligned indices the kept loop computes exactly the filter of the
zipped triples, with no exception. -/
theorem keptFrom_eq (f : Filters) (ids : List String) (dists : List ℚ) :
    ∀ (metas : List (Option Meta)) (idx : ℕ),
      idx + metas.length ≤ ids.length → idx + metas.length ≤ dists.length →
      keptFrom ids dists f metas idx =
        some (keptPure f (zip3 (ids.drop idx) metas (dists.drop idx))) := by
  intro metas
  induction metas with
  | nil =>
    intro idx h1 h2
    simp [keptFrom, keptPure, zip3, List.zip_nil_left, List.zip_nil_right]
  | cons om rest ih =>
    intro idx h1 h2
    simp only [List.length_cons] at h1 h2
    have hid : idx < ids.length := by omega
    have hdd : idx < dists.length := by omega
    have ih' := ih (idx + 1) (by omega) (by omega)
    rw [zip3_drop_cons ids dists om rest idx hid hdd]
    cases om with
    | none =>
      have hstep : keptFrom ids dists f (none :: rest) idx =
          keptFrom ids dists f rest (idx + 1) := rfl
      rw [hstep, ih']
      simp only [keptPure, List.filter_cons, keptTest_none, Bool.false_eq_true, if_false]
    | some m =>
      by_cases hc : candPass f m = true
      · have hstep : keptFrom ids dists f (some m :: rest) idx =
            (keptFrom ids dists f rest (idx + 1)).map
              (fun ks => (ids[idx], some m, dists[idx]) :: ks) := by
          simp [keptFrom, hc, List.getElem?_eq_getElem hid, List.getElem?_eq_getElem hdd]
        rw [hstep, ih']
        simp only [keptPure, List.filter_cons, keptTest_some, hc, if_true, Option.map_some']
      · have hc' : candPass f m = false := by
          simpa using hc
        have hstep : keptFrom ids dists f (some m :: rest) idx =
            keptFrom ids dists f rest (idx + 1) := by
          simp [keptFrom, hc']
        rw [hstep, ih']
        simp only [keptPure, List.filter_cons, keptTest_some, hc', Bool.false_eq_true, if_false]

/-- `apply_filters` on aligned inputs: never an exception, and the output
is the input when nothing was kept, else the rebuilt kept triples. -/
theorem apply_filters_aligned_eq (r : Results) (f : Filters)
    (h1 : r.ids.length = r.metadatas.length) (h2 : r.metadatas.length = r.distances.length) :
    apply_filters r f =
      some (if keptPure f (zip3 r.ids r.metadatas r.distances) = [] then r
            else ⟨(keptPure f (zip3 r.ids r.metadatas r.distances)).map (fun t => t.1),
                  (keptPure f (zip3 r.ids r.metadatas r.distances)).map (fun t => t.2.1),
                  (keptPure f (zip3 r.ids r.metadatas r.distances)).map (fun t => t.2.2)⟩) := by
  by_cases hids : r.ids = []
  · have hm : r.metadatas = [] := by
      have : r.metadatas.length = 0 := by rw [← h1, hids]; rfl
      exact List.length_eq_zero.mp this
    simp [apply_filters, hids, hm, zip3, keptPure, List.zip_nil_left]
  · have hkf := keptFrom_eq f r.ids r.distances r.metadatas 0 (by omega) (by omega)
    simp only [List.drop_zero] at hkf
    unfold apply_filters
    rw [if_neg hids, hkf]
    by_cases hk : keptPure f (zip3 r.ids r.metadatas r.distances) = []
    · rw [hk]
      simp
    · rw [if_neg hk]
      match hke : keptPure f (zip3 r.ids r.metadatas r.distances), hk with
      | k :: ks, _ => rfl

/-- Rebuilding the triple zip from the three projections of a triple list
gives back the list. -/
theorem zip3_maps (ks : List (α × β × γ)) :
    zip3 (ks.map (fun t => t.1)) (ks.map (fun t => t.2.1)) (ks.map (fun t => t.2.2)) = ks := by
  induction ks with
  | nil => rfl
  | cons t ts ih =>
    obtain ⟨a, b, c⟩ := t
    simpa [zip3, List.zip_cons_cons] using ih

/-- Length of the triple zip. -/
theorem length_zip3 (a : List α) (b : List β) (c : List γ) :
    (zip3 a b c).length = min a.length (min b.length c.length) := by
  simp [zip3, List.length_zip]

theorem rerankLe_trans (f : String → String → ℚ) (q : String) (metas : List (Option Meta)) :
    ∀ a b c, rerankLe f q metas a b = true → rerankLe f q metas b c = true →
      rerankLe f q metas a c = true := by
  intro a b c hab hbc
  simp only [rerankLe, decide_eq_true_eq] at hab hbc ⊢
  exact le_trans hbc hab

theorem rerankLe_total (f : String → String → ℚ) (q : String) (metas : List (Option Meta)) :
    ∀ a b, (rerankLe f q metas a b || rerankLe f q metas b a) = true := by
  intro a b
  simp only [rerankLe, Bool.or_eq_true, decide_eq_true_eq]
  exact le_total _ _

theorem rerankOrder_perm (f : String → String → ℚ) (q : String)
    (metas : List (Option Meta)) (topn : ℕ) :
    (rerankOrder f q metas topn).Perm (List.range (min topn metas.length)) :=
  List.mergeSort_perm _ _

theorem rerankOrder_sorted (f : String → String → ℚ) (q : String)
    (metas : List (Option Meta)) (topn : ℕ) :
    (rerankOrder f q metas topn).Pairwise
      (fun i j => scoreAt f q metas j ≤ scoreAt f q metas i) := by
  have h := List.sorted_mergeSort (rerankLe_trans f q metas) (rerankLe_total f q metas)
    (List.range (min topn metas.length))
  refine h.imp ?_
  intro a b hab
  simpa only [rerankLe, decide_eq_true_eq] using hab

/-- An ordered index pair below `n` is a sublist of `range n`. -/
theorem pair_sublist_range (i j n : ℕ) (hij : i < j) (hjn : j < n) :
    List.Sublist [i, j] (List.range n) := by
  have h1 : List.Sublist [i] (List.range j) :=
    List.singleton_sublist.mpr (List.mem_range.mpr hij)
  have h2 : List.Sublist [j] (List.range' j (n - j)) := by
    refine List.singleton_sublist.mpr ?_
    rw [List.mem_range'_1]
    omega
  have happ : List.range j ++ List.range' j (n - j) = List.range n := by
    rw [List.range_eq_range', List.range_eq_range']
    have h := List.range'_append 0 j (n - j) 1
    simp only [Nat.zero_add, Nat.one_mul] at h
    rw [h]
    congr 1
    omega
  have := h1.append h2
  rwa [happ] at this

theorem rerankOrder_stable (f : String → String → ℚ) (q : String)
    (metas : List (Option Meta)) (topn : ℕ) (i j : ℕ) (hij : i < j)
    (hjn : j < min topn metas.length)
    (heq : scoreAt f q metas i = scoreAt f q metas j) :
    List.Sublist [i, j] (rerankOrder f q metas topn) := by
  refine List.mergeSort_stable_pair (rerankLe_trans f q metas) (rerankLe_total f q metas)
    ?_ (pair_sublist_range i j _ hij hjn)
  simp only [rerankLe, decide_eq_true_eq, heq, le_refl]

theorem rerank_eq_of_ok (f : String → String → ℚ) (q : String) (ids : List String)
    (metas : List (Option Meta)) (dists : List ℚ) (topn : ℕ)
    (hsome : (metas.take (min topn metas.length)).all Option.isSome = true)
    (hid : min topn metas.length ≤ ids.length)
    (hdi : min topn metas.length ≤ dists.length) :
    rerank f q ids metas dists topn =
      some ((rerankOrder f q metas topn).map (fun i => ids.getD i ""),
            (rerankOrder f q metas topn).map (fun i => metas.getD i none),
            (rerankOrder f q metas topn).map (fun i => dists.getD i 0)) := by
  unfold rerank
  rw [if_pos ⟨hsome, hid, hdi⟩]

/-- Claim C1: the orchestrator is claimed to retry filtering with category
cleared whenever the full filter pass comes back empty.  On the concrete
drone/helmet pool the first pass is semantically empty (no candidate
passes the combined predicate), yet `apply_filters` falls back to
returning its whole input, so the orchestrator surfaces the full
unfiltered pool and the relaxed (category-cleared) pass — which would have
returned just the helmet — never runs. -/
theorem C1_relaxation_never_fires_on_nonempty_pool :
    dronePool.metadatas.all
      (fun om => match om with
        | some m => !candPass droneFilters m
        | none => true) = true ∧
    answerFilterStage dronePool droneFilters = some dronePool ∧
    apply_filters dronePool (clearCategory droneFilters) = some helmetOnly ∧
    some dronePool ≠ some helmetOnly := by
  refine ⟨by decide, by decide, by decide, by decide⟩

/-- Claim C3: on aligned inputs `apply_filters` never raises and its
output is an order-preserving subset of the input: the output triples form
a sublist of the input triples and the output is no longer than the
input. -/
theorem C3_filter_order_preserving_subset (r : Results) (f : Filters)
    (h1 : r.ids.length = r.metadatas.length)
    (h2 : r.metadatas.length = r.distances.length) :
    ∃ r', apply_filters r f = some r' ∧
      List.Sublist (zip3 r'.ids r'.metadatas r'.distances)
        (zip3 r.ids r.metadatas r.distances) ∧
      r'.ids.length ≤ r.ids.length := by
  rw [apply_filters_aligned_eq r f h1 h2]
  by_cases hk : keptPure f (zip3 r.ids r.metadatas r.distances) = []
  · refine ⟨r, by rw [if_pos hk], List.Sublist.refl _, le_refl _⟩
  · refine ⟨_, by rw [if_neg hk], ?_, ?_⟩
    · rw [zip3_maps]
      exact List.filter_sublist _
    · simp only [List.length_map]
      have hle : (keptPure f (zip3 r.ids r.metadatas r.distances)).length ≤
          (zip3 r.ids r.metadatas r.distances).length :=
        (List.filter_sublist _).length_le
      have hz : (zip3 r.ids r.metadatas r.distances).length = r.ids.length := by
        rw [length_zip3]
        omega
      omega

/-- Witness for C3 at a concrete aligned pool. -/
theorem C3_witness :
    dronePool.ids.length = dronePool.metadatas.length ∧
    dronePool.metadatas.length = dronePool.distances.length ∧
    (∃ r', apply_filters dronePool droneFilters = some r' ∧
      List.Sublist (zip3 r'.ids r'.metadatas r'.distances)
        (zip3 dronePool.ids dronePool.metadatas dronePool.distances) ∧
      r'.ids.length ≤ dronePool.ids.length) :=
  ⟨by decide, by decide,
    C3_filter_order_preserving_subset dronePool droneFilters (by decide) (by decide)⟩

/-- Claim C4: with a non-null `price_max`, the price predicate used by
`apply_filters` passes a candidate priced exactly at `price_max`, fails
one priced at `price_max + 0.01`, and passes candidates whose price is
absent, empty, or unparseable — for every `price_max`. -/
theorem C4_price_boundary (pm : ℚ) (s : String) (hs : parseFloat s = none) :
    pricePass (some pm) (some (PriceVal.num pm)) = true ∧
    pricePass (some pm) (some (PriceVal.num (pm + 1 / 100))) = false ∧
    pricePass (some pm) none = true ∧
    pricePass (some pm) (some (PriceVal.str "")) = true ∧
    pricePass (some pm) (some (PriceVal.str s)) = true := by
  refine ⟨?_, ?_, rfl, ?_, ?_⟩
  · simp [pricePass, priceFloat]
  · simp only [pricePass, priceFloat]
    rw [if_neg (by simp)]
    simp only [decide_eq_false_iff_not, not_le]
    linarith
  · simp [pricePass]
  · by_cases hse : s = ""
    · subst hse
      simp [pricePass]
    · simp only [pricePass, priceFloat]
      rw [if_neg (by simpa using hse), hs]

/-- Witness for C4 at `price_max = 100` and the unparseable price
`"n/a"`. -/
theorem C4_witness :
    parseFloat "n/a" = none ∧
    (pricePass (some 100) (some (PriceVal.num 100)) = true ∧
      pricePass (some 100) (some (PriceVal.num (100 + 1 / 100))) = false ∧
      pricePass (some 100) none = true ∧
      pricePass (some 100) (some (PriceVal.str "")) = true ∧
      pricePass (some 100) (some (PriceVal.str "n/a")) = true) :=
  ⟨by decide, C4_price_boundary 100 "n/a" (by decide)⟩

/-- Claim C7 counterexample: with the ChromaDB backend selected, a raised
backend query error propagates out of `VectorDB.query` instead of being
turned into an empty candidate set. -/
theorem C7_chromadb_error_propagates :
    VectorDB.query false (Except.ok []) (Except.error ()) true = Except.error () := rfl

/-- Claim C7 amended: only the Weaviate path converts a backend failure
into the empty candidate set; the ChromaDB path returns the native outcome
unchanged, so its errors propagate. -/
theorem C7_weaviate_empty_on_error (cnative : Except Unit Results)
    (wnative : Except Unit (List WObj)) (inc : Bool) :
    VectorDB.query true (Except.error ()) cnative inc = Except.ok emptyResults ∧
    VectorDB.query false wnative (Except.error ()) inc = Except.error () :=
  ⟨rfl, rfl⟩

/-- Claim C8: when the summarization call times out, the orchestrator
substitutes the deterministic templated fallback, which is never empty and
contains both the result count and the original query verbatim. -/
theorem C8_summarize_timeout_fallback (q : String) (metas : List (Option Meta)) :
    summarizeStep none q metas = fallbackSummary q metas.length ∧
    summarizeStep none q metas ≠ "" ∧
    isSubstr (toString metas.length) (summarizeStep none q metas) = true ∧
    isSubstr q (summarizeStep none q metas) = true := by
  have hdata : (fallbackSummary q metas.length).data =
      ("Found ").data ++ ((toString metas.length).data ++
        ((" products matching your search for '").data ++ (q.data ++
          ("'. Here are the top results:").data))) := by
    simp [fallbackSummary, String.data_append, List.append_assoc]
  refine ⟨rfl, ?_, ?_, ?_⟩
  · intro hemp
    have hemp' : fallbackSummary q metas.length = "" := hemp
    have := congrArg String.data hemp'
    rw [hdata] at this
    simp at this
  · show isSubstr (toString metas.length) (fallbackSummary q metas.length) = true
    rw [isSubstr_iff, hdata]
    exact ⟨("Found ").data,
      (" products matching your search for '").data ++ (q.data ++
        ("'. Here are the top results:").data), by simp [List.append_assoc]⟩
  · show isSubstr q (fallbackSummary q metas.length) = true
    rw [isSubstr_iff, hdata]
    exact ⟨("Found ").data ++ ((toString metas.length).data ++
      (" products matching your search for '").data),
      ("'. Here are the top results:").data, by simp [List.append_assoc]⟩

/-- Claim C9: when no candidate of a non-empty pool satisfies the combined
predicate, `apply_filters` returns its input unchanged; consequently an
output differing from the input implies some candidate passed. -/
theorem C9_empty_kept_returns_input (r : Results) (f : Filters) (hne : r.ids ≠ []) :
    ((∀ om ∈ r.metadatas, ∀ m : Meta, om = some m → candPass f m = false) →
      apply_filters r f = some r) ∧
    (∀ r', apply_filters r f = some r' → r' ≠ r →
      ∃ om ∈ r.metadatas, ∃ m : Meta, om = some m ∧ candPass f m = true) := by
  have hbase : (∀ om ∈ r.metadatas, ∀ m : Meta, om = some m → candPass f m = false) →
      apply_filters r f = some r := by
    intro hnp
    unfold apply_filters
    rw [if_neg hne, keptFrom_none_pass r.ids r.distances f r.metadatas hnp 0]
  refine ⟨hbase, ?_⟩
  intro r' hr' hner
  by_contra hcon
  push_neg at hcon
  have hnp : ∀ om ∈ r.metadatas, ∀ m : Meta, om = some m → candPass f m = false := by
    intro om hom m hm
    have := hcon om hom m hm
    simpa using this
  rw [hbase hnp] at hr'
  exact hner (Option.some.inj hr').symm

/-- Witness for C9 at a concrete pool where nothing passes. -/
theorem C9_witness :
    dronePool.ids ≠ [] ∧ apply_filters dronePool droneFilters = some dronePool :=
  ⟨by decide,
    (C9_empty_kept_returns_input dronePool droneFilters (by decide)).1 (by decide)⟩

theorem getD_eq_get_of_lt (l : List α) (d : α) (i : ℕ) (h : i < l.length) :
    l.getD i d = l[i] := by
  rw [List.getD_eq_getElem?_getD, List.getElem?_eq_getElem h]
  rfl

/-- Claim C6: `rerank` considers exactly the first `min(topn, len)`
candidates (the output is indexed by a permutation of `range n` — all
later candidates are dropped), orders them by non-increasing score, and
keeps tied candidates in their pre-rerank relative order. -/
theorem C6_rerank_descending_stable (f : String → String → ℚ) (q : String)
    (ids : List String) (metas : List (Option Meta)) (dists : List ℚ) (topn : ℕ)
    (hsome : (metas.take (min topn metas.length)).all Option.isSome = true)
    (hid : min topn metas.length ≤ ids.length)
    (hdi : min topn metas.length ≤ dists.length) :
    ∃ order : List ℕ,
      order.Perm (List.range (min topn metas.length)) ∧
      rerank f q ids metas dists topn =
        some (order.map (fun i => ids.getD i ""),
              order.map (fun i => metas.getD i none),
              order.map (fun i => dists.getD i 0)) ∧
      order.Pairwise (fun i j => scoreAt f q metas j ≤ scoreAt f q metas i) ∧
      (∀ i j : ℕ, i < j → j < min topn metas.length →
        scoreAt f q metas i = scoreAt f q metas j → List.Sublist [i, j] order) :=
  ⟨rerankOrder f q metas topn, rerankOrder_perm f q metas topn,
    rerank_eq_of_ok f q ids metas dists topn hsome hid hdi,
    rerankOrder_sorted f q metas topn,
    fun i j hij hjn heq => rerankOrder_stable f q metas topn i j hij hjn heq⟩

/-- Witness for C6 on a concrete three-candidate pool with `topn = 2`. -/
theorem C6_witness :
    ([some wMeta1, some wMeta2, some wMeta3].take
        (min 2 [some wMeta1, some wMeta2, some wMeta3].length)).all Option.isSome = true ∧
    min 2 [some wMeta1, some wMeta2, some wMeta3].length ≤ ["a", "b", "c"].length ∧
    min 2 [some wMeta1, some wMeta2, some wMeta3].length ≤ [(1 : ℚ), 2, 3].length ∧
    (∃ order : List ℕ,
      order.Perm (List.range (min 2 [some wMeta1, some wMeta2, some wMeta3].length)) ∧
      rerank wScore "q" ["a", "b", "c"] [some wMeta1, some wMeta2, some wMeta3]
          [(1 : ℚ), 2, 3] 2 =
        some (order.map (fun i => ["a", "b", "c"].getD i ""),
              order.map (fun i => [some wMeta1, some wMeta2, some wMeta3].getD i none),
              order.map (fun i => [(1 : ℚ), 2, 3].getD i 0)) ∧
      order.Pairwise (fun i j =>
        scoreAt wScore "q" [some wMeta1, some wMeta2, some wMeta3] j ≤
          scoreAt wScore "q" [some wMeta1, some wMeta2, some wMeta3] i) ∧
      (∀ i j : ℕ, i < j → j < min 2 [some wMeta1, some wMeta2, some wMeta3].length →
        scoreAt wScore "q" [some wMeta1, some wMeta2, some wMeta3] i =
          scoreAt wScore "q" [some wMeta1, some wMeta2, some wMeta3] j →
        List.Sublist [i, j] order)) :=
  ⟨by decide, by decide, by decide,
    C6_rerank_descending_stable wScore "q" ["a", "b", "c"]
      [some wMeta1, some wMeta2, some wMeta3] [(1 : ℚ), 2, 3] 2
      (by decide) (by decide) (by decide)⟩

/-- Claim C10: on equal-length inputs, both `apply_filters` and `rerank`
keep the three parallel lists index-aligned: whenever they return an
output, its three lists have equal length and every output position's id,
metadata and distance come from one common input index. -/
theorem C10_parallel_array_alignment :
    (∀ (r : Results) (f : Filters),
        r.ids.length = r.metadatas.length → r.metadatas.length = r.distances.length →
        ∀ r', apply_filters r f = some r' →
          r'.ids.length = r'.metadatas.length ∧
          r'.metadatas.length = r'.distances.length ∧
          ∀ k, k < r'.ids.length → ∃ i, i < r.ids.length ∧
            r'.ids.getD k "" = r.ids.getD i "" ∧
            r'.metadatas.getD k none = r.metadatas.getD i none ∧
            r'.distances.getD k 0 = r.distances.getD i 0) ∧
    (∀ (f : String → String → ℚ) (q : String) (ids : List String)
        (metas : List (Option Meta)) (dists : List ℚ) (topn : ℕ),
        ids.length = metas.length → metas.length = dists.length →
        ∀ out, rerank f q ids metas dists topn = some out →
          out.1.length = out.2.1.length ∧
          out.2.1.length = out.2.2.length ∧
          ∀ k, k < out.1.length → ∃ i, i < ids.length ∧
            out.1.getD k "" = ids.getD i "" ∧
            out.2.1.getD k none = metas.getD i none ∧
            out.2.2.getD k 0 = dists.getD i 0) := by
  constructor
  · intro r f h1 h2 r' hr'
    rw [apply_filters_aligned_eq r f h1 h2] at hr'
    have hr'' := Option.some.inj hr'
    by_cases hk : keptPure f (zip3 r.ids r.metadatas r.distances) = []
    · rw [if_pos hk] at hr''
      subst hr''
      refine ⟨h1, h2, ?_⟩
      intro k hk'
      exact ⟨k, hk', rfl, rfl, rfl⟩
    · rw [if_neg hk] at hr''
      subst hr''
      refine ⟨by simp, by simp, ?_⟩
      intro k hk'
      simp only [List.length_map] at hk'
      have hksub : List.Sublist (keptPure f (zip3 r.ids r.metadatas r.distances))
          (zip3 r.ids r.metadatas r.distances) := List.filter_sublist _
      have hmem : (keptPure f (zip3 r.ids r.metadatas r.distances))[k] ∈
          zip3 r.ids r.metadatas r.distances :=
        hksub.subset (List.getElem_mem hk')
      obtain ⟨i, hilt, hiz⟩ := List.mem_iff_getElem.mp hmem
      have hzlen : (zip3 r.ids r.metadatas r.distances).length = r.ids.length := by
        rw [length_zip3]
        omega
      have hi_ids : i < r.ids.length := by omega
      have hi_metas : i < r.metadatas.length := by omega
      have hi_dists : i < r.distances.length := by omega
      have hi_zip : i < (r.metadatas.zip r.distances).length := by
        rw [List.length_zip]
        omega
      have hzi : (zip3 r.ids r.metadatas r.distances)[i] =
          (r.ids[i], r.metadatas[i], r.distances[i]) := by
        have h₁ : (zip3 r.ids r.metadatas r.distances)[i] =
            (r.ids[i], (r.metadatas.zip r.distances)[i]) := List.getElem_zip
        rw [h₁, List.getElem_zip]
      rw [hzi] at hiz
      refine ⟨i, hi_ids, ?_, ?_, ?_⟩
      · rw [getD_eq_get_of_lt _ _ _ (by simpa using hk'), List.getElem_map,
          getD_eq_get_of_lt _ _ _ hi_ids]
        rw [← hiz]
      · rw [getD_eq_get_of_lt _ _ _ (by simpa using hk'), List.getElem_map,
          getD_eq_get_of_lt _ _ _ hi_metas]
        rw [← hiz]
      · rw [getD_eq_get_of_lt _ _ _ (by simpa using hk'), List.getElem_map,
          getD_eq_get_of_lt _ _ _ hi_dists]
        rw [← hiz]
  · intro f q ids metas dists topn h1 h2 out hout
    unfold rerank at hout
    by_cases hcond : (metas.take (min topn metas.length)).all Option.isSome = true ∧
        min topn metas.length ≤ ids.length ∧ min topn metas.length ≤ dists.length
    · rw [if_pos hcond] at hout
      have hout' := Option.some.inj hout
      subst hout'
      refine ⟨by simp, by simp, ?_⟩
      intro k hk'
      simp only [List.length_map] at hk'
      set order := rerankOrder f q metas topn with horder
      have hmem : order[k] ∈ order := List.getElem_mem hk'
      have hlt : order[k] < min topn metas.length :=
        List.mem_range.mp ((rerankOrder_perm f q metas topn).mem_iff.mp hmem)
      refine ⟨order[k], ?_, ?_, ?_, ?_⟩
      · have := min_le_right topn metas.length
        omega
      · rw [getD_eq_get_of_lt _ _ _ (by simpa using hk'), List.getElem_map]
      · rw [getD_eq_get_of_lt _ _ _ (by simpa using hk'), List.getElem_map]
      · rw [getD_eq_get_of_lt _ _ _ (by simpa using hk'), List.getElem_map]
    · rw [if_neg hcond] at hout
      exact absurd hout (by simp)

/-- Witness for C10: both conjuncts applied at concrete aligned inputs. -/
theorem C10_witness :
    (apply_filters dronePool droneFilters = some dronePool ∧
      dronePool.ids.length = dronePool.metadatas.length ∧
      dronePool.metadatas.length = dronePool.distances.length ∧
      ∀ k, k < dronePool.ids.length → ∃ i, i < dronePool.ids.length ∧
        dronePool.ids.getD k "" = dronePool.ids.getD i "" ∧
        dronePool.metadatas.getD k none = dronePool.metadatas.getD i none ∧
        dronePool.distances.getD k 0 = dronePool.distances.getD i 0) ∧
    (∀ out, rerank wScore "q" ["a", "b", "c"] [some wMeta1, some wMeta2, some wMeta3]
        [(1 : ℚ), 2, 3] 2 = some out →
      out.1.length = out.2.1.length ∧
      out.2.1.length = out.2.2.length ∧
      ∀ k, k < out.1.length → ∃ i, i < ["a", "b", "c"].length ∧
        out.1.getD k "" = ["a", "b", "c"].getD i "" ∧
        out.2.1.getD k none = [some wMeta1, some wMeta2, some wMeta3].getD i none ∧
        out.2.2.getD k 0 = [(1 : ℚ), 2, 3].getD i 0) := by
  constructor
  · refine ⟨by decide, ?_⟩
    exact C10_parallel_array_alignment.1 dronePool droneFilters (by decide) (by decide)
      dronePool (by decide)
  · intro out hout
    exact C10_parallel_array_alignment.2 wScore "q" ["a", "b", "c"]
      [some wMeta1, some wMeta2, some wMeta3] [(1 : ℚ), 2, 3] 2
      (by decide) (by decide) out hout

theorem fallback_rewrite_ok (user_text : String) (hut : user_text ≠ "") :
    (fallbackParsed user_text).rewrite ≠ JValue.jstr "" ∧
    (fallbackParsed user_text).rewrite = JValue.jstr user_text := by
  refine ⟨?_, rfl⟩
  simpa [fallbackParsed] using hut

/-- Claim C2 counterexample: a failure of the extraction call itself
(timeout, transport, API error) happens outside `llm_parse_query`'s
`try` block and therefore propagates as an exception instead of being
turned into a degraded ParsedFilters. -/
theorem C2_transport_failure_propagates :
    llm_parse_query (Except.error ()) "red shoes" = Except.error () := rfl

/-- Claim C2 amended: when the call returns but its content is not a JSON
object (non-JSON text, or JSON of another shape), `llm_parse_query`
catches the failure and returns the all-null ParsedFilters with
`rewrite = raw query` and the warning flag; a failure of the call itself
propagates to the caller. -/
theorem C2_malformed_output_degrades (user_text : String) (raw : Option JValue)
    (h : isJsonObject raw = false) :
    llm_parse_query (Except.ok raw) user_text = Except.ok (fallbackParsed user_text) := by
  cases raw with
  | none => rfl
  | some v =>
    cases v with
    | jnull => rfl
    | jbool b => rfl
    | jnum q => rfl
    | jstr s => rfl
    | jarr xs => rfl
    | jobj fields => exact absurd h (by simp [isJsonObject])

/-- Witness for the amended C2 at non-JSON extractor content. -/
theorem C2_witness :
    isJsonObject none = false ∧
    llm_parse_query (Except.ok none) "red shoes" = Except.ok (fallbackParsed "red shoes") :=
  ⟨rfl, C2_malformed_output_degrades "red shoes" none rfl⟩

/-- Claim C5: whenever the parser returns a ParsedFilters for a non-empty
input, its `rewrite` is never the empty string, and it equals the original
query text whenever extraction failed to deliver an object or delivered a
missing/null/empty `rewrite`. -/
theorem C5_rewrite_nonempty (call : Except Unit (Option JValue)) (user_text : String)
    (d : ParsedOut) (hut : user_text ≠ "")
    (hok : llm_parse_query call user_text = Except.ok d) :
    d.rewrite ≠ JValue.jstr "" ∧
      ((extractionFailed call = true ∨ extractedRewriteEmpty call = true) →
        d.rewrite = JValue.jstr user_text) := by
  cases call with
  | error e => exact absurd hok (by simp [llm_parse_query])
  | ok raw =>
    cases raw with
    | none =>
      have hd : (Except.ok (fallbackParsed user_text) : Except Unit ParsedOut) =
          Except.ok d := hok
      have hd' := Except.ok.inj hd
      subst hd'
      exact ⟨(fallback_rewrite_ok user_text hut).1,
        fun _ => (fallback_rewrite_ok user_text hut).2⟩
    | some v =>
      cases v with
      | jnull =>
        have hd' := Except.ok.inj (show (Except.ok (fallbackParsed user_text) :
          Except Unit ParsedOut) = Except.ok d from hok)
        subst hd'
        exact ⟨(fallback_rewrite_ok user_text hut).1,
          fun _ => (fallback_rewrite_ok user_text hut).2⟩
      | jbool b =>
        have hd' := Except.ok.inj (show (Except.ok (fallbackParsed user_text) :
          Except Unit ParsedOut) = Except.ok d from hok)
        subst hd'
        exact ⟨(fallback_rewrite_ok user_text hut).1,
          fun _ => (fallback_rewrite_ok user_text hut).2⟩
      | jnum q =>
        have hd' := Except.ok.inj (show (Except.ok (fallbackParsed user_text) :
          Except Unit ParsedOut) = Except.ok d from hok)
        subst hd'
        exact ⟨(fallback_rewrite_ok user_text hut).1,
          fun _ => (fallback_rewrite_ok user_text hut).2⟩
      | jstr s =>
        have hd' := Except.ok.inj (show (Except.ok (fallbackParsed user_text) :
          Except Unit ParsedOut) = Except.ok d from hok)
        subst hd'
        exact ⟨(fallback_rewrite_ok user_text hut).1,
          fun _ => (fallback_rewrite_ok user_text hut).2⟩
      | jarr xs =>
        have hd' := Except.ok.inj (show (Except.ok (fallbackParsed user_text) :
          Except Unit ParsedOut) = Except.ok d from hok)
        subst hd'
        exact ⟨(fallback_rewrite_ok user_text hut).1,
          fun _ => (fallback_rewrite_ok user_text hut).2⟩
      | jobj fields =>
        have hd' := Except.ok.inj (show (Except.ok (coerce_parsed fields user_text) :
          Except Unit ParsedOut) = Except.ok d from hok)
        subst hd'
        by_cases ht : jTruthy (getJ fields "rewrite") = true
        · have hrw : (coerce_parsed fields user_text).rewrite = getJ fields "rewrite" := by
            simp [coerce_parsed, ht]
          constructor
          · rw [hrw]
            intro hcontra
            rw [hcontra] at ht
            simp [jTruthy] at ht
          · intro hpre
            exfalso
            rcases hpre with hf | he
            · simp [extractionFailed] at hf
            · simp only [extractedRewriteEmpty] at he
              cases hj : jget fields "rewrite" with
              | none =>
                have : getJ fields "rewrite" = JValue.jnull := by simp [getJ, hj]
                rw [this] at ht
                simp [jTruthy] at ht
              | some r =>
                rw [hj] at he
                have hgj : getJ fields "rewrite" = r := by simp [getJ, hj]
                rw [hgj] at ht
                cases r with
                | jnull => simp [jTruthy] at ht
                | jstr s =>
                  have hs : s = "" := by simpa using he
                  subst hs
                  simp [jTruthy] at ht
                | jbool b => simp at he
                | jnum q => simp at he
                | jarr xs => simp at he
                | jobj fs => simp at he
        · have hrw : (coerce_parsed fields user_text).rewrite = JValue.jstr user_text := by
            simp [coerce_parsed, ht]
          rw [hrw]
          exact ⟨by simpa using hut, fun _ => rfl⟩

/-- Witness for C5 at a failed extraction. -/
theorem C5_witness :
    "red shoes" ≠ "" ∧
    llm_parse_query (Except.ok none) "red shoes" = Except.ok (fallbackParsed "red shoes") ∧
    ((fallbackParsed "red shoes").rewrite ≠ JValue.jstr "" ∧
      ((extractionFailed (Except.ok none) = true ∨
        extractedRewriteEmpty (Except.ok none) = true) →
        (fallbackParsed "red shoes").rewrite = JValue.jstr "red shoes")) :=
  ⟨by decide, rfl,
    C5_rewrite_nonempty (Except.ok none) "red shoes" (fallbackParsed "red shoes")
      (by decide) rfl⟩

end ShopTalk
